import Mathlib

/-!
Shallow embedding of the Gameboy sigrok protocol decoder
(`src/gameboy/pd.py`, `src/gameboy/lookups.py`, `src/gameboy/utils.py`,
`src/gameboy/hardware_constants.py`).

Python exceptions (IndexError, TypeError, AttributeError, ValueError) are
modelled by `Option`-valued functions returning `none`; Python `None` fields
are modelled by `Option` fields.  The static symbol text `sym` lives in
`src/gameboy/symbols.py`, which is not part of the sources; everything that
reads the symbol table is therefore parameterised by the table (`SymTable`)
or, for the raw parser, by the `sym` string itself.
-/

namespace GB

/-- `lookups.Instruction`: opcode, length (cycles / 4), annotation text. -/
structure Instruction where
  opcode : Nat
  length : Nat
  ann : String
deriving DecidableEq

/-- `lookups.tables`, exactly the non-commented entries of the source list. -/
def tables : List Instruction := [
  ⟨0x3e, 2, "ld a, #"⟩,
  ⟨0x7e, 2, "ld a, [hl]"⟩,
  ⟨0x21, 3, "ld hl, nn"⟩,
  ⟨0xea, 4, "ld [nn], a"⟩,
  ⟨0xfe, 2, "cp #"⟩,
  ⟨0xc3, 3, "jp nn"⟩,
  ⟨0xc2, 3, "jp NZ, nn"⟩,
  ⟨0xca, 3, "jp Z, nn"⟩,
  ⟨0x18, 2, "jp n"⟩,
  ⟨0xcd, 3, "call nn"⟩,
  ⟨0xc7, 8, "rst 0x00"⟩]

/-- `hardware_constants.HardwareConstantData`. -/
structure HardwareConstantData where
  ann : String
  data : Nat
deriving DecidableEq

/-- `hardware_constants.HardwareConstant`; the `data` dict keyed by the
`data` field of each entry is modelled by the list itself (entries have
distinct `data` keys, so `find?` agrees with the dict). -/
structure HardwareConstant where
  ann : String
  addr : Nat
  data : List HardwareConstantData
deriving DecidableEq

/-- `hardware_constants.hardware_const_table`. -/
def hardware_const_table : List HardwareConstant := [
  ⟨"MBC3SRamEnable", 0x0000, [⟨"SRAM_ENABLE", 0x0a⟩, ⟨"SRAM_DISABLE", 0x00⟩]⟩,
  ⟨"MBC3RomBank", 0x2000, []⟩,
  ⟨"MBC3SRamBank", 0x4000, []⟩,
  ⟨"MBC3LatchClock", 0x6000, [⟨"LATCH_CLOCK", 0x01⟩, ⟨"RESET_LATCH", 0x00⟩]⟩,
  ⟨"MBC3RTC", 0xa000, []⟩]

/-- Python dict lookup on an association list (keys are unique by
construction, so `find?` matches dict semantics). -/
def lookupAssoc {α : Type} (l : List (Nat × α)) (k : Nat) : Option α :=
  (l.find? (fun p => p.1 == k)).map (fun p => p.2)

/-- Python dict assignment `d[k] = v` on an association list. -/
def setAssoc {α : Type} : List (Nat × α) → Nat → α → List (Nat × α)
  | [], k, v => [(k, v)]
  | (k', v') :: rest, k, v =>
    if k' == k then (k, v) :: rest else (k', v') :: setAssoc rest k v

/-- `Lookups.symbols`: mapping `address -> (bank -> symbol name)`. -/
abbrev SymTable := List (Nat × List (Nat × String))

/-- Two-level dict lookup `symbols[addr][bank]`
(`if addr in symbols: if bank in symbols[addr]: ...`). -/
def symLookup (syms : SymTable) (addr bank : Nat) : Option String :=
  match lookupAssoc syms addr with
  | some banks => lookupAssoc banks bank
  | none => none

/-- `Lookups.instructions[d]`, i.e. the dict built from `tables` keyed by
opcode; `none` argument models a `None` data byte (`None in dict` is False). -/
def instLookup : Option Nat → Option Instruction
  | none => none
  | some d => tables.find? (fun i => i.opcode == d)

/-- `Lookups.hardware_const[a]`, the dict built from `hardware_const_table`
keyed by `addr`. -/
def hwLookup (a : Nat) : Option HardwareConstant :=
  hardware_const_table.find? (fun c => c.addr == a)

/-- Python `str.split(sep)` for a single-character separator, on the
character list of the string (`"".split(c) = [""]`, separators kept as
empty fields). -/
def splitChar (c : Char) : List Char → List (List Char)
  | [] => [[]]
  | x :: xs =>
    let r := splitChar c xs
    if x = c then [] :: r
    else
      match r with
      | [] => [[x]]
      | h :: t => (x :: h) :: t

/-- Python `s.split(sep)` for the single-character separators used by the
source (`':'`, `' '`, `'\n'`). -/
def pySplit (c : Char) (s : String) : List String :=
  (splitChar c s.data).map (fun cs => ⟨cs⟩)

/-- Value of a hexadecimal digit character, else `none`. -/
def hexDigitVal (c : Char) : Option Nat :=
  if 48 ≤ c.toNat ∧ c.toNat ≤ 57 then some (c.toNat - 48)
  else if 97 ≤ c.toNat ∧ c.toNat ≤ 102 then some (c.toNat - 87)
  else if 65 ≤ c.toNat ∧ c.toNat ≤ 70 then some (c.toNat - 55)
  else none

def parseHexAux : List Char → Nat → Option Nat
  | [], acc => some acc
  | c :: cs, acc =>
    match hexDigitVal c with
    | some v => parseHexAux cs (acc * 16 + v)
    | none => none

/-- Python `int(s, 16)` on the plain hex-digit strings the symbol file
format uses; a `ValueError` (empty string or non-hex character) is `none`.
(The extra forms Python tolerates - sign, `0x` prefix, surrounding
whitespace, underscores - do not occur in the `<bank-hex>:<addr-hex> <name>`
line format and are not modelled.) -/
def parseHex (s : String) : Option Nat :=
  if s = "" then none else parseHexAux s.data 0

/-- `symbols[addr] = {}` (if absent) followed by `symbols[addr][bank] = name`. -/
def insertSym (syms : SymTable) (addr bank : Nat) (name : String) : SymTable :=
  let inner := (lookupAssoc syms addr).getD []
  setAssoc syms addr (setAssoc inner bank name)

/-- The loop body of `Lookups.process_raw_symbols`, iterating over the split
lines.  A line with `len(p1) != 2` only prints a diagnostic and then FALLS
THROUGH to `bank = int(p1[0], 16)` and `p1[1]`: the out-of-range access /
ValueError that follows is modelled by `none` (the whole load aborts). -/
def processSymLines : List String → SymTable → Option SymTable
  | [], acc => some acc
  | line :: rest, acc =>
    if line = "" then processSymLines rest acc
    else
      let p1 := pySplit (':') line
      match p1[0]? with
      | none => none
      | some bankStr =>
        match parseHex bankStr with
        | none => none
        | some bank =>
          match p1[1]? with
          | none => none
          | some rest1 =>
            let p2 := pySplit (' ') rest1
            match p2[0]? with
            | none => none
            | some addrStr =>
              match parseHex addrStr with
              | none => none
              | some addr =>
                match p2[1]? with
                | none => none
                | some symName =>
                  processSymLines rest (insertSym acc addr bank symName)

/-- `Lookups.process_raw_symbols(raw_symbols)`.  NOTE (faithful to the
source): the body splits the module-level constant `sym` (here the first
parameter, since `symbols.py` is not among the sources), never the
`raw_symbols` parameter. -/
def process_raw_symbols (sym : String) (raw_symbols : String) : Option SymTable :=
  processSymLines (pySplit ('\n') sym) []

/-- `pd.Lookups.find_symbol(cycle, bank)` needs only the cycle's address:
`None` address is not a key of the symbol dict. -/
def find_symbol_at (syms : SymTable) (addrOpt : Option Nat) (bank : Nat) : Option String :=
  match addrOpt with
  | some a => symLookup syms a bank
  | none => none

/-- `pd.Addr` window constants. -/
def ROM0_START : Nat := 0x0150
def ROM0_END : Nat := 0x3FFF
def ROMX_START : Nat := 0x4000
def ROMX_END : Nat := 0x7FFF
def SRAM_START : Nat := 0xA000
def SRAM_END : Nat := 0xBFFF

/-- `pd.reduce_bus`: the all-ones sentinel `0xFF` anywhere in the batch means
an unassigned channel (`None`); otherwise fold `(a << 1) | b` over the
reversed batch.  Python's initial-less `reduce` on a non-empty list agrees
with a fold starting from `0` because `(0 << 1) | b = b`; `reduce` on an
empty batch raises `TypeError`, modelled by `none`. -/
def reduce_bus (bus : List Nat) : Option Nat :=
  if 255 ∈ bus then none
  else
    match bus with
    | [] => none
    | _ :: _ => some (bus.reverse.foldl (fun a b => (a <<< 1) ||| b) 0)

/-- `pd.CycleType`. -/
inductive CycleType
  | UNKNOWN
  | DATA
  | OPCODE
deriving DecidableEq

/-- `pd.ReadState`. -/
inductive ReadState
  | INIT
  | INCOMPLETE
  | COMPLETE
deriving DecidableEq

/-- `pd.Mode` (the unset dataclass field is `Option Mode = none` at use
sites). -/
inductive Mode
  | NONE
  | READ_ROM0
  | READ_ROMX
  | READ_SRAM
  | WRITE_SRAM
  | READ_WRAM0
  | READ_WRAMX
  | SWITCH_ROM_BANK
  | SWITCH_WRAM_BANK
deriving DecidableEq

/-- `pd.Cycle`: one decoded bus sample. -/
structure Cycle where
  sample : Nat
  addr : Option Nat
  data : Option Nat
  cycle_type : CycleType
deriving DecidableEq

/-- `Cycle.__post_init__`: address bits are `pins[Pin.A0:Pin.A15+1]` =
`pins[4:20]`, data bits `pins[Pin.D0:Pin.D7+1]` = `pins[20:28]`;
`cycle_type` defaults to `UNKNOWN`. -/
def mkCycle (sample : Nat) (pins : List Nat) : Cycle :=
  { sample,
    addr := reduce_bus ((pins.drop 4).take 16),
    data := reduce_bus ((pins.drop 20).take 8),
    cycle_type := CycleType.UNKNOWN }

/-- `pd.Read`: a (possibly multi-cycle) read transaction. -/
structure Read where
  start_sample : Nat
  cycles : List Cycle
  mode : Option Mode
  end_sample : Option Nat
  symbol : Option String
  instruction : Option Instruction
  state : ReadState
  special_ann : Option String
  cycle_count : Nat
deriving DecidableEq

/-- `Read.init_rom(cycle, lookups, rom_bank)` together with the
`self.cycles.append(cycle)` that follows it in `__post_init__`. -/
def Read.init_rom (start_sample : Nat) (mode : Mode) (cycle : Cycle)
    (rom_bank : Nat) (syms : SymTable) : Read :=
  let symbol := find_symbol_at syms cycle.addr rom_bank
  match instLookup cycle.data with
  | some inst =>
    { start_sample,
      cycles := [{ cycle with cycle_type := CycleType.OPCODE }],
      mode := some mode,
      end_sample := none,
      symbol,
      instruction := some inst,
      state := if inst.length ≠ 1 then ReadState.INCOMPLETE else ReadState.COMPLETE,
      special_ann := none,
      cycle_count := 1 }
  | none =>
    { start_sample,
      cycles := [cycle],
      mode := some mode,
      end_sample := none,
      symbol,
      instruction := none,
      state := ReadState.COMPLETE,
      special_ann := none,
      cycle_count := 1 }

/-- `Read.__post_init__`: classify the first sample by address window.  A
`None` address makes the chained comparison `ROM0_START <= addr <= ROM0_END`
raise `TypeError`, modelled by `none`.  Note the out-of-window branch leaves
`cycle_count` at its default `0` and `mode` unset. -/
def Read.init (start_sample : Nat) (pins : List Nat) (rom_bank : Nat)
    (syms : SymTable) : Option Read :=
  match (mkCycle start_sample pins).addr with
  | none => none
  | some a =>
    if ROM0_START ≤ a ∧ a ≤ ROM0_END then
      some (Read.init_rom start_sample Mode.READ_ROM0 (mkCycle start_sample pins) 0x0 syms)
    else if ROMX_START ≤ a ∧ a ≤ ROMX_END then
      some (Read.init_rom start_sample Mode.READ_ROMX (mkCycle start_sample pins) rom_bank syms)
    else
      some { start_sample,
             cycles := [{ mkCycle start_sample pins with cycle_type := CycleType.UNKNOWN }],
             mode := none,
             end_sample := none,
             symbol := none,
             instruction := none,
             state := ReadState.COMPLETE,
             special_ann := none,
             cycle_count := 0 }

/-- `Read.next(pins, sample)`: append a data cycle; complete when the count
reaches `self.instruction.length` (an `AttributeError` on a `None`
instruction is modelled by `none`). -/
def Read.next (r : Read) (pins : List Nat) (sample : Nat) : Option Read :=
  match r.instruction with
  | none => none
  | some inst =>
    let cycle := { mkCycle sample pins with cycle_type := CycleType.DATA }
    let cc := r.cycle_count + 1
    some { r with
           cycles := r.cycles ++ [cycle],
           cycle_count := cc,
           state := if cc = inst.length then ReadState.COMPLETE else r.state }

/-- The special-annotation part of `Read.end`: for the absolute-operand
opcodes, build the 16-bit target from `cycles[2]`/`cycles[1]` and look it up
under the SRAM bank; `cycles[2]` out of range (IndexError) or a `None` data
byte (TypeError on `None << 8`) is modelled by `none`; otherwise this
returns the value `self.special_ann` holds after the body ran. -/
def Read.end_special (r : Read) (sram_bank : Nat) (syms : SymTable) :
    Option (Option String) :=
  match r.instruction with
  | some inst =>
    if inst.opcode ∈ [0x21, 0xc2, 0xc3, 0xca, 0xcd, 0xea] then
      match r.cycles[2]? with
      | none => none
      | some c2 =>
        match c2.data with
        | none => none
        | some d2 =>
          match r.cycles[1]? with
          | none => none
          | some c1 =>
            match c1.data with
            | none => none
            | some d1 =>
              let addr := (d2 <<< 0b1000) + d1
              match symLookup syms addr sram_bank with
              | some s => some (some (inst.ann ++ " (" ++ s ++ ")"))
              | none => some r.special_ann
    else some r.special_ann
  | none => some r.special_ann

/-- `Read.end(end_sample, sram_bank)`: run the special-annotation body, then
record `end_sample`. -/
def Read.end' (r : Read) (end_sample : Nat) (sram_bank : Nat)
    (syms : SymTable) : Option Read :=
  match Read.end_special r sram_bank syms with
  | none => none
  | some sp => some { r with special_ann := sp, end_sample := some end_sample }

/-- `Read.get_instruction_ann`: the special annotation if set, else the bare
mnemonic (`AttributeError` on `None` instruction modelled by `none`). -/
def Read.get_instruction_ann (r : Read) : Option String :=
  match r.special_ann with
  | some s => some s
  | none =>
    match r.instruction with
    | some inst => some inst.ann
    | none => none

/-- `pd.Write`: a single-cycle write transaction. -/
structure Write where
  start_sample : Nat
  cycle : Cycle
  mode : Option Mode
  end_sample : Option Nat
  symbol : Option String
  hardware_const : Option HardwareConstant
  cycle_count : Nat
deriving DecidableEq

/-- `Write.__post_init__`: classify by the SRAM window (TypeError on `None`
address modelled by `none`), then attach a matching hardware constant. -/
def Write.init (start_sample : Nat) (pins : List Nat) (sram_bank : Nat)
    (syms : SymTable) : Option Write :=
  match (mkCycle start_sample pins).addr with
  | none => none
  | some a =>
    if SRAM_START ≤ a ∧ a ≤ SRAM_END then
      some { start_sample,
             cycle := { mkCycle start_sample pins with cycle_type := CycleType.DATA },
             mode := some Mode.WRITE_SRAM,
             end_sample := none,
             symbol := find_symbol_at syms (mkCycle start_sample pins).addr sram_bank,
             hardware_const := hwLookup a,
             cycle_count := 0 }
    else
      some { start_sample,
             cycle := mkCycle start_sample pins,
             mode := none,
             end_sample := none,
             symbol := none,
             hardware_const := hwLookup a,
             cycle_count := 0 }

/-- `Write.is_rom_bank_switch`. -/
def Write.is_rom_bank_switch (w : Write) : Bool :=
  match w.hardware_const with
  | some hc => hc.addr == 0x2000
  | none => false

/-- `Write.is_sram_bank_switch`. -/
def Write.is_sram_bank_switch (w : Write) : Bool :=
  match w.hardware_const with
  | some hc => hc.addr == 0x4000
  | none => false

/-- `pd.Ann` output classes. -/
def Ann.ADDR : Nat := 0
def Ann.RD : Nat := 1
def Ann.WR : Nat := 2
def Ann.SYM : Nat := 3
def Ann.WR_FUNC : Nat := 4
def Ann.CODE : Nat := 5
def Ann.CONST : Nat := 6
def Ann.ROM_BANK : Nat := 7
def Ann.SRAM_BANK : Nat := 8

/-- One `self.put(ss, es, self.out_ann, [cls, texts])` output event. -/
structure AnnEvent where
  ss : Nat
  es : Nat
  cls : Nat
  texts : List String
deriving DecidableEq

/-- The `prev_rom_bank` / `prev_sram_bank` dicts of `Decoder`.  Their
`'bank'` entry is a plain `Nat`: storing a `None` data byte is impossible
because building the dict formats the byte with `'{:02X}'.format`, which
raises on `None` first (see `Decoder.switch_rom`). -/
structure BankInfo where
  start_sample : Nat
  bank : Nat
  ann : String
deriving DecidableEq

/-- Python `'{:0wX}'.format(n)`: uppercase hex, zero-padded to `width`. -/
def hexUpper (width n : Nat) : String :=
  let ds := (Nat.toDigits 16 n).map Char.toUpper
  ⟨List.replicate (width - ds.length) ('0') ++ ds⟩

/-- The mutable `Decoder` session state (`start`/`reset`), with the single
registered `AnnFilter`'s `putting` latch inlined and the stream of `put`
events accumulated in order. -/
structure DecoderState where
  samplenum : Nat
  prev_read : Option Read
  prev_write : Option Write
  prev_rom_bank : Option BankInfo
  prev_sram_bank : Option BankInfo
  putting : Bool
  out : List AnnEvent
deriving DecidableEq

/-- `rom_bank = self.prev_rom_bank['bank'] if self.prev_rom_bank else 0x00`. -/
def romBankOf (s : DecoderState) : Nat :=
  match s.prev_rom_bank with
  | some b => b.bank
  | none => 0x00

/-- `sram_bank = self.prev_sram_bank['bank'] if self.prev_sram_bank else 0x00`. -/
def sramBankOf (s : DecoderState) : Nat :=
  match s.prev_sram_bank with
  | some b => b.bank
  | none => 0x00

/-- The per-cycle loop of `Decoder.print_read`: for each cycle emit an
`ADDR` and an `RD` event spanning to the next cycle's sample
(`get_sub_end_sample`), the last one spanning to `read.end_sample`.
Formatting a `None` address/data raises, and an unset `end_sample` raises
`AttributeError`; both are modelled by `none`. -/
def cycle_events : List Cycle → Option Nat → Option (List AnnEvent)
  | [], _ => some []
  | [c], endS =>
    match endS, c.addr, c.data with
    | some e, some a, some d =>
      some [⟨c.sample, e, Ann.ADDR, [hexUpper 4 a]⟩,
            ⟨c.sample, e, Ann.RD, [hexUpper 2 d]⟩]
    | _, _, _ => none
  | c :: c2 :: rest, endS =>
    match c.addr, c.data, cycle_events (c2 :: rest) endS with
    | some a, some d, some tail =>
      some (⟨c.sample, c2.sample, Ann.ADDR, [hexUpper 4 a]⟩ ::
            ⟨c.sample, c2.sample, Ann.RD, [hexUpper 2 d]⟩ :: tail)
    | _, _, _ => none

/-- The events `Decoder.print_read(read)` emits, in order: per-cycle
address/data pairs, then (symbol truthy) a `SYM` event, then (instruction
present) a `CODE` event with `get_instruction_ann`. -/
def print_read_events (r : Read) : Option (List AnnEvent) :=
  match cycle_events r.cycles r.end_sample with
  | none => none
  | some cevs =>
    match (match r.symbol with
           | some s =>
             if s = "" then some ([] : List AnnEvent)
             else
               match r.end_sample with
               | some e => some [⟨r.start_sample, e, Ann.SYM, [s]⟩]
               | none => none
           | none => some ([] : List AnnEvent)) with
    | none => none
    | some sevs =>
      match (match r.instruction with
             | some _ =>
               match r.get_instruction_ann, r.end_sample with
               | some ann, some e => some [⟨r.start_sample, e, Ann.CODE, [ann]⟩]
               | _, _ => none
             | none => some ([] : List AnnEvent)) with
      | none => none
      | some ievs => some (cevs ++ sevs ++ ievs)

/-- `Decoder.print_read` as a state transformer (appends its events). -/
def Decoder.print_read (s : DecoderState) (r : Read) : Option DecoderState :=
  match print_read_events r with
  | some evs => some { s with out := s.out ++ evs }
  | none => none

/-- The `AnnFilter` the decoder registers in `start`. -/
def start_symbol : String := "UpdatePlayerCoords"
def end_symbol : String := "_HandlePlayerStep.finish"

/-- The first step of `AnnFilter.check`: `if read.symbol == start_symbol:
putting = True`; the resulting latch value also decides whether the
callback runs. -/
def filterOn (putting : Bool) (sym : Option String) : Bool :=
  if sym = some start_symbol then true else putting

/-- The last step of `AnnFilter.check`: `if read.symbol == end_symbol:
putting = False`. -/
def filterAfter (p1 : Bool) (sym : Option String) : Bool :=
  if sym = some end_symbol then false else p1

/-- `Decoder.end_read`: end the open read, run it through
`self.print_player_step.check` (which toggles the latch on the read's
symbol and, while the latch is on, invokes `print_read`), then clear
`prev_read`. -/
def Decoder.end_read (s : DecoderState) (syms : SymTable) : Option DecoderState :=
  match s.prev_read with
  | none => some s
  | some r =>
    match Read.end' r s.samplenum (sramBankOf s) syms with
    | none => none
    | some r' =>
      match (if filterOn s.putting r'.symbol then
               Decoder.print_read { s with putting := filterOn s.putting r'.symbol } r'
             else
               some { s with putting := filterOn s.putting r'.symbol }) with
      | none => none
      | some s1 =>
        some { s1 with
               putting := filterAfter (filterOn s.putting r'.symbol) r'.symbol,
               prev_read := none }

/-- `Decoder.end_write`: end the open write; only when the filter latch is
on, emit the address/data events plus the symbol or hardware-constant
events; always clear `prev_write`. -/
def Decoder.end_write (s : DecoderState) : Option DecoderState :=
  match s.prev_write with
  | none => some s
  | some w =>
    if s.putting then
      match w.cycle.addr, w.cycle.data with
      | some a, some d =>
        let evs1 := [⟨w.start_sample, s.samplenum, Ann.ADDR, [hexUpper 4 a]⟩,
                     ⟨w.start_sample, s.samplenum, Ann.WR, [hexUpper 2 d]⟩]
        let hwEvs : List AnnEvent :=
          match w.hardware_const with
          | some hc =>
            let e1 := [⟨w.start_sample, s.samplenum, Ann.WR_FUNC, [hc.ann]⟩]
            match hc.data.find? (fun it => it.data == d) with
            | some item => e1 ++ [⟨w.start_sample, s.samplenum, Ann.CONST, [item.ann]⟩]
            | none => e1
          | none => []
        let evs2 :=
          match w.symbol with
          | some sym => if sym ≠ "" then [⟨w.start_sample, s.samplenum, Ann.SYM, [sym]⟩] else hwEvs
          | none => hwEvs
        some { s with out := s.out ++ evs1 ++ evs2, prev_write := none }
      | _, _ => none
    else some { s with prev_write := none }

/-- `Decoder.switch_rom(write)`: close the previous ROM-bank span (if any)
and open a new one keyed by the written data byte; `'{:02X}'.format(None)`
raises, modelled by `none`. -/
def Decoder.switch_rom (s : DecoderState) (w : Write) : Option DecoderState :=
  let s1 : DecoderState :=
    match s.prev_rom_bank with
    | some b => { s with out := s.out ++ [⟨b.start_sample, s.samplenum, Ann.ROM_BANK, [b.ann]⟩] }
    | none => s
  match w.cycle.data with
  | none => none
  | some d =>
    some { s1 with prev_rom_bank := some (BankInfo.mk s.samplenum d ("ROM Bank: " ++ hexUpper 2 d)) }

/-- `Decoder.switch_sram(write)`. -/
def Decoder.switch_sram (s : DecoderState) (w : Write) : Option DecoderState :=
  let s1 : DecoderState :=
    match s.prev_sram_bank with
    | some b => { s with out := s.out ++ [⟨b.start_sample, s.samplenum, Ann.SRAM_BANK, [b.ann]⟩] }
    | none => s
  match w.cycle.data with
  | none => none
  | some d =>
    some { s1 with prev_sram_bank := some (BankInfo.mk s.samplenum d ("SRAM Bank: " ++ hexUpper 2 d)) }

/-- `Decoder.write(pins)`: force-close an open write, open the new one, and
apply the ROM/SRAM bank-switch side effect. -/
def Decoder.write (s : DecoderState) (pins : List Nat) (syms : SymTable) : Option DecoderState :=
  match (match s.prev_write with
         | some _ => Decoder.end_write s
         | none => some s) with
  | none => none
  | some s1 =>
    match Write.init s1.samplenum pins (sramBankOf s1) syms with
    | none => none
    | some w =>
      if w.is_rom_bank_switch then Decoder.switch_rom { s1 with prev_write := some w } w
      else if w.is_sram_bank_switch then Decoder.switch_sram { s1 with prev_write := some w } w
      else some { s1 with prev_write := some w }

/-- `Decoder.read(pins)`: open a read, extend an `INCOMPLETE` one, or close
a `COMPLETE` one and open a fresh read.  (`rom_bank` is computed from the
state at entry, exactly as the source computes it before branching.) -/
def Decoder.read (s : DecoderState) (pins : List Nat) (syms : SymTable) : Option DecoderState :=
  match s.prev_read with
  | none =>
    match Read.init s.samplenum pins (romBankOf s) syms with
    | some r => some { s with prev_read := some r }
    | none => none
  | some r =>
    if r.state = ReadState.INCOMPLETE then
      match Read.next r pins s.samplenum with
      | some r' => some { s with prev_read := some r' }
      | none => none
    else if r.state = ReadState.COMPLETE then
      match Decoder.end_read s syms with
      | some s1 =>
        match Read.init s1.samplenum pins (romBankOf s) syms with
        | some r' => some { s1 with prev_read := some r' }
        | none => none
      | none => none
    else some s

/-- The two edge patterns `Decoder.decode` waits for, with the sampled pin
vector. -/
inductive Edge
  | readStart (pins : List Nat)
  | writeStart (pins : List Nat)
deriving DecidableEq

/-- One iteration of the `Decoder.decode` loop: record the sample number,
then dispatch on the matched edge (`START_READ` ends any open write first,
`START_WRITE` ends any open read first). -/
def Decoder.decodeStep (syms : SymTable) (s : DecoderState) (sample : Nat)
    (e : Edge) : Option DecoderState :=
  match e with
  | Edge.readStart pins =>
    match Decoder.end_write { s with samplenum := sample } with
    | some s1 => Decoder.read s1 pins syms
    | none => none
  | Edge.writeStart pins =>
    match Decoder.end_read { s with samplenum := sample } syms with
    | some s1 => Decoder.write s1 pins syms
    | none => none

/-- The state after `Decoder.start`: no open transactions, no bank context,
and the filter latch off. -/
def initState : DecoderState :=
  ⟨0, none, none, none, none, false, []⟩

/-- Run the decode loop over a list of (sample, edge) events. -/
def run (syms : SymTable) : DecoderState → List (Nat × Edge) → Option DecoderState
  | s, [] => some s
  | s, (n, e) :: evs =>
    match Decoder.decodeStep syms s n e with
    | some s' => run syms s' evs
    | none => none

/-- `utils.AnnFilter` with the callback abstracted away: `check` reports
whether `self.func(read)` would have been invoked (first component) and
returns the updated filter (second component). -/
structure AnnFilter where
  start_symbol : String
  end_symbol : String
  putting : Bool
deriving DecidableEq

/-- `AnnFilter.check(read)`, driven by `read.symbol`. -/
def AnnFilter.check (f : AnnFilter) (sym : Option String) : Bool × AnnFilter :=
  let p1 := if sym = some f.start_symbol then true else f.putting
  let p2 := if sym = some f.end_symbol then false else p1
  (p1, { f with putting := p2 })

/-! Concrete fixture inputs used by the witness theorems. -/

/-- A 28-entry pin vector driving the given 16-bit address and 8-bit data. -/
def pinsFor (addr data : Nat) : List Nat :=
  [0, 0, 0, 0] ++ ((List.range 16).map (fun i => (addr >>> i) &&& 1))
    ++ ((List.range 8).map (fun i => (data >>> i) &&& 1))

def symsEx : SymTable := [(0x5000, [(0x03, "MyFunc")])]

/-- Read-start at `0x0150` (ROM0) with data `0x3e` (`ld a, #`, length 2). -/
def pinsOpc : List Nat := pinsFor 0x0150 0x3e

/-- Read-start at `0x0150` with data `0xcd` (`call nn`, length 3). -/
def pinsCall : List Nat := pinsFor 0x0150 0xcd

/-- Read-start at `0x8000`, outside both ROM windows. -/
def pinsOut : List Nat := pinsFor 0x8000 0x00

/-- Write-start at `0x2000` (MBC3RomBank) with data `0x03`. -/
def pinsBank : List Nat := pinsFor 0x2000 0x03

/-- Read-start at `0x5000` (ROMX) with data `0x00` (not a table opcode). -/
def pinsRomx : List Nat := pinsFor 0x5000 0x00

def dummyRead : Read :=
  ⟨0, [], none, none, none, none, ReadState.INIT, none, 0⟩

def sC1 : DecoderState :=
  (run [] initState [(0, Edge.readStart pinsOpc)]).getD initState

def rC1 : Read := sC1.prev_read.getD dummyRead

def sC2 : DecoderState :=
  (Decoder.decodeStep [] initState 0 (Edge.readStart pinsOut)).getD initState

def sC3a : DecoderState :=
  (Decoder.decodeStep symsEx initState 0 (Edge.writeStart pinsBank)).getD initState

def sC3b : DecoderState :=
  (Decoder.decodeStep symsEx sC3a 4 (Edge.readStart pinsRomx)).getD initState

def rC4 : Read :=
  ⟨0,
   [⟨0, some 0x0150, some 0xcd, CycleType.OPCODE⟩,
    ⟨1, some 0x0151, some 0x00, CycleType.DATA⟩,
    ⟨2, some 0x0152, some 0x50, CycleType.DATA⟩],
   some Mode.READ_ROM0, none, none, some ⟨0xcd, 3, "call nn"⟩,
   ReadState.COMPLETE, none, 3⟩

def sC6a : DecoderState :=
  (Decoder.decodeStep [] initState 0 (Edge.readStart pinsOut)).getD initState

def sC6b : DecoderState :=
  (Decoder.decodeStep [] sC6a 5 (Edge.readStart pinsOut)).getD initState

def sC6w : DecoderState := (Decoder.end_read sC6a []).getD initState

def rC6 : Read := sC6a.prev_read.getD dummyRead

/-- A completed read whose resolved symbol is the filter's start symbol:
closing it while the latch is off turns the latch on and renders it. -/
def rC6s : Read :=
  ⟨0,
   [⟨0, some 0x0150, some 0x3e, CycleType.OPCODE⟩,
    ⟨3, some 0x0151, some 0x12, CycleType.DATA⟩],
   some Mode.READ_ROM0, none, some start_symbol,
   some ⟨0x3e, 2, "ld a, #"⟩, ReadState.COMPLETE, none, 2⟩

def sC6s : DecoderState := ⟨7, some rC6s, none, none, none, false, []⟩

def sC6t : DecoderState := (Decoder.end_read sC6s []).getD initState

def pinsC8 : List Nat := List.replicate 28 255

def rC10 : Read :=
  ⟨0, [⟨0, some 0x0150, some 0xcd, CycleType.OPCODE⟩],
   some Mode.READ_ROM0, none, none, some ⟨0xcd, 3, "call nn"⟩,
   ReadState.INCOMPLETE, none, 1⟩

/-- The cycle-count / state relation every stored `Read` with a recognised
instruction satisfies (the formal content of the §3 invariant). -/
def readOK (r : Read) : Prop :=
  ∀ inst, r.instruction = some inst →
    r.cycles.length = r.cycle_count ∧ r.cycle_count ≤ inst.length ∧
    (r.state = ReadState.COMPLETE ↔ r.cycle_count = inst.length)

/-- The decoder invariant: any open read satisfies `readOK`. -/
def stInv (s : DecoderState) : Prop :=
  ∀ r, s.prev_read = some r → readOK r

/-! Helper lemmas. -/

lemma hwLookup_addr {a : Nat} {hc : HardwareConstant} (h : hwLookup a = some hc) :
    hc.addr = a := by
  unfold hwLookup at h
  have hp := List.find?_some h
  simpa using hp

lemma instLookup_length {d : Option Nat} {i : Instruction} (h : instLookup d = some i) :
    1 ≤ i.length := by
  cases d with
  | none => simp [instLookup] at h
  | some v =>
    unfold instLookup at h
    have hm : i ∈ tables := List.mem_of_find?_eq_some h
    fin_cases hm <;> decide

lemma init_rom_instruction (ss : Nat) (m : Mode) (cy : Cycle) (bank : Nat)
    (syms : SymTable) :
    (Read.init_rom ss m cy bank syms).instruction = instLookup cy.data := by
  unfold Read.init_rom
  cases h : instLookup cy.data <;> simp

lemma init_rom_symbol (ss : Nat) (m : Mode) (cy : Cycle) (bank : Nat)
    (syms : SymTable) :
    (Read.init_rom ss m cy bank syms).symbol = find_symbol_at syms cy.addr bank := by
  unfold Read.init_rom
  cases h : instLookup cy.data <;> simp

lemma init_rom_readOK (ss : Nat) (m : Mode) (cy : Cycle) (bank : Nat)
    (syms : SymTable) : readOK (Read.init_rom ss m cy bank syms) := by
  unfold readOK Read.init_rom
  cases h : instLookup cy.data with
  | none => intro inst hinst; simp at hinst
  | some i =>
    intro inst hinst
    simp at hinst
    subst hinst
    have hlen := instLookup_length h
    by_cases hl : i.length = 1 <;> simp [hl] <;> omega

lemma init_readOK {n : Nat} {pins : List Nat} {bank : Nat} {syms : SymTable}
    {r : Read} (h : Read.init n pins bank syms = some r) : readOK r := by
  unfold Read.init at h
  split at h
  · exact absurd h (by simp)
  · split at h
    · cases h; exact init_rom_readOK _ _ _ _ _
    · split at h
      · cases h; exact init_rom_readOK _ _ _ _ _
      · cases h; intro inst hinst; simp at hinst

lemma next_readOK {r r' : Read} {pins : List Nat} {n : Nat}
    (hst : r.state = ReadState.INCOMPLETE) (hok : readOK r)
    (h : Read.next r pins n = some r') : readOK r' := by
  unfold Read.next at h
  cases hi : r.instruction with
  | none => rw [hi] at h; exact absurd h (by simp)
  | some inst =>
    rw [hi] at h
    simp at h
    obtain ⟨hlen, hle, hiff⟩ := hok inst hi
    have hne : r.cycle_count ≠ inst.length := by
      intro he
      have := hiff.mpr he
      rw [hst] at this
      exact absurd this (by simp)
    subst h
    intro inst' hinst'
    simp at hinst'
    subst hinst'
    refine ⟨by simp [hlen], by simp; omega, ?_⟩
    by_cases hc : r.cycle_count + 1 = inst.length
    · simp [hc]
    · simp [hc, hst]

lemma end'_fields {r r' : Read} {n b : Nat} {syms : SymTable}
    (h : Read.end' r n b syms = some r') :
    r'.cycles = r.cycles ∧ r'.instruction = r.instruction ∧ r'.state = r.state ∧
    r'.cycle_count = r.cycle_count ∧ r'.symbol = r.symbol ∧
    r'.start_sample = r.start_sample ∧ r'.end_sample = some n := by
  unfold Read.end' at h
  split at h
  · exact absurd h (by simp)
  · cases h; simp

lemma end'_readOK {r r' : Read} {n b : Nat} {syms : SymTable}
    (hok : readOK r) (h : Read.end' r n b syms = some r') : readOK r' := by
  obtain ⟨hc, hi, hs, hcc, -, -, -⟩ := end'_fields h
  intro inst hinst
  rw [hi] at hinst
  rw [hc, hs, hcc]
  exact hok inst hinst

lemma print_read_fields {s s' : DecoderState} {r : Read}
    (h : Decoder.print_read s r = some s') :
    ∃ evs, print_read_events r = some evs ∧ s' = { s with out := s.out ++ evs } := by
  unfold Decoder.print_read at h
  split at h
  next evs heq => cases h; exact ⟨evs, heq, rfl⟩
  next => exact absurd h (by simp)

lemma end_read_fields {s s' : DecoderState} {syms : SymTable}
    (h : Decoder.end_read s syms = some s') :
    s'.prev_read = none ∧ s'.prev_write = s.prev_write ∧
    s'.prev_rom_bank = s.prev_rom_bank ∧ s'.prev_sram_bank = s.prev_sram_bank ∧
    s'.samplenum = s.samplenum := by
  unfold Decoder.end_read at h
  split at h
  next hnone => cases h; exact ⟨hnone, rfl, rfl, rfl, rfl⟩
  next r hr =>
    split at h
    · exact absurd h (by simp)
    next r' hend =>
      split at h
      · exact absurd h (by simp)
      next s1 heq =>
        cases h
        split at heq
        · obtain ⟨evs, -, hs1⟩ := print_read_fields heq
          subst hs1
          exact ⟨rfl, rfl, rfl, rfl, rfl⟩
        · cases heq
          exact ⟨rfl, rfl, rfl, rfl, rfl⟩

lemma end_write_fields {s s' : DecoderState}
    (h : Decoder.end_write s = some s') :
    s'.prev_write = none ∧ s'.prev_read = s.prev_read ∧
    s'.prev_rom_bank = s.prev_rom_bank ∧ s'.prev_sram_bank = s.prev_sram_bank ∧
    s'.samplenum = s.samplenum ∧ s'.putting = s.putting := by
  unfold Decoder.end_write at h
  split at h
  next hnone => cases h; exact ⟨hnone, rfl, rfl, rfl, rfl, rfl⟩
  next w hw =>
    split at h
    · split at h
      · simp only at h
        cases h
        exact ⟨rfl, rfl, rfl, rfl, rfl, rfl⟩
      · exact absurd h (by simp)
    · cases h
      exact ⟨rfl, rfl, rfl, rfl, rfl, rfl⟩

lemma switch_rom_fields {s s' : DecoderState} {w : Write}
    (h : Decoder.switch_rom s w = some s') :
    s'.prev_read = s.prev_read ∧ s'.prev_write = s.prev_write ∧
    s'.prev_sram_bank = s.prev_sram_bank ∧ s'.samplenum = s.samplenum ∧
    s'.putting = s.putting ∧
    ∃ d, w.cycle.data = some d ∧
      s'.prev_rom_bank = some (BankInfo.mk s.samplenum d ("ROM Bank: " ++ hexUpper 2 d)) := by
  unfold Decoder.switch_rom at h
  simp only at h
  split at h
  · exact absurd h (by simp)
  next d hd =>
    cases h
    refine ⟨?_, ?_, ?_, ?_, ?_, d, hd, ?_⟩ <;> split <;> rfl

lemma switch_sram_fields {s s' : DecoderState} {w : Write}
    (h : Decoder.switch_sram s w = some s') :
    s'.prev_read = s.prev_read ∧ s'.prev_write = s.prev_write ∧
    s'.prev_rom_bank = s.prev_rom_bank ∧ s'.samplenum = s.samplenum ∧
    s'.putting = s.putting ∧
    ∃ d, w.cycle.data = some d ∧
      s'.prev_sram_bank = some (BankInfo.mk s.samplenum d ("SRAM Bank: " ++ hexUpper 2 d)) := by
  unfold Decoder.switch_sram at h
  simp only at h
  split at h
  · exact absurd h (by simp)
  next d hd =>
    cases h
    refine ⟨?_, ?_, ?_, ?_, ?_, d, hd, ?_⟩ <;> split <;> rfl

lemma write_init_fields {n : Nat} {pins : List Nat} {sb : Nat} {syms : SymTable}
    {w : Write} (h : Write.init n pins sb syms = some w) :
    ∃ a, reduce_bus ((pins.drop 4).take 16) = some a ∧ w.cycle.addr = some a ∧
      w.hardware_const = hwLookup a ∧
      w.cycle.data = reduce_bus ((pins.drop 20).take 8) := by
  unfold Write.init at h
  split at h
  · exact absurd h (by simp)
  next a ha =>
    have ha' : reduce_bus ((pins.drop 4).take 16) = some a := ha
    split at h
    · cases h
      exact ⟨a, ha', ha, rfl, rfl⟩
    · cases h
      exact ⟨a, ha', ha, rfl, rfl⟩

lemma init_instruction_some {n : Nat} {pins : List Nat} {bank : Nat}
    {syms : SymTable} {r : Read} (h : Read.init n pins bank syms = some r) :
    r.instruction = instLookup (mkCycle n pins).data ∨ r.instruction = none := by
  unfold Read.init at h
  split at h
  · exact absurd h (by simp)
  · split at h
    · cases h; exact Or.inl (init_rom_instruction ..)
    · split at h
      · cases h; exact Or.inl (init_rom_instruction ..)
      · cases h; exact Or.inr rfl

lemma read_fields {s s' : DecoderState} {pins : List Nat} {syms : SymTable}
    (h : Decoder.read s pins syms = some s') :
    s'.prev_write = s.prev_write ∧ s'.prev_rom_bank = s.prev_rom_bank ∧
    s'.prev_sram_bank = s.prev_sram_bank ∧ s'.samplenum = s.samplenum := by
  unfold Decoder.read at h
  split at h
  · split at h
    · cases h; exact ⟨rfl, rfl, rfl, rfl⟩
    · exact absurd h (by simp)
  · split at h
    · split at h
      · cases h; exact ⟨rfl, rfl, rfl, rfl⟩
      · exact absurd h (by simp)
    · split at h
      · split at h
        next s1 hend =>
          split at h
          · cases h
            obtain ⟨-, hw, hrb, hsb, hn⟩ := end_read_fields hend
            exact ⟨hw, hrb, hsb, hn⟩
          · exact absurd h (by simp)
        · exact absurd h (by simp)
      · cases h; exact ⟨rfl, rfl, rfl, rfl⟩

lemma read_stInv {s s' : DecoderState} {pins : List Nat} {syms : SymTable}
    (hinv : stInv s) (h : Decoder.read s pins syms = some s') : stInv s' := by
  unfold Decoder.read at h
  split at h
  · split at h
    next r hr =>
      cases h
      intro r0 hr0
      simp at hr0
      subst hr0
      exact init_readOK hr
    · exact absurd h (by simp)
  next r hprev =>
    split at h
    next hst =>
      split at h
      next r' hnext =>
        cases h
        intro r0 hr0
        simp at hr0
        subst hr0
        exact next_readOK hst (hinv r hprev) hnext
      · exact absurd h (by simp)
    · split at h
      · split at h
        next s1 hend =>
          split at h
          next r' hr' =>
            cases h
            intro r0 hr0
            simp at hr0
            subst hr0
            exact init_readOK hr'
          · exact absurd h (by simp)
        · exact absurd h (by simp)
      · cases h; exact hinv

lemma write_fields {s s' : DecoderState} {pins : List Nat} {syms : SymTable}
    (h : Decoder.write s pins syms = some s') :
    s'.prev_read = s.prev_read ∧ s'.samplenum = s.samplenum ∧
    s'.prev_write.isSome := by
  unfold Decoder.write at h
  split at h
  · exact absurd h (by simp)
  next s1 h1 =>
    have hfr : s1.prev_read = s.prev_read ∧ s1.samplenum = s.samplenum := by
      split at h1
      · obtain ⟨-, hr, -, -, hn, -⟩ := end_write_fields h1
        exact ⟨hr, hn⟩
      · cases h1; exact ⟨rfl, rfl⟩
    split at h
    · exact absurd h (by simp)
    next w hw =>
      split at h
      · obtain ⟨hr2, hw2, -, hn2, -, d, -, -⟩ := switch_rom_fields h
        refine ⟨by rw [hr2]; exact hfr.1, by rw [hn2]; exact hfr.2, ?_⟩
        rw [hw2]; simp
      · split at h
        · obtain ⟨hr2, hw2, -, hn2, -, d, -, -⟩ := switch_sram_fields h
          refine ⟨by rw [hr2]; exact hfr.1, by rw [hn2]; exact hfr.2, ?_⟩
          rw [hw2]; simp
        · cases h
          exact ⟨hfr.1, hfr.2, by simp⟩

lemma is_rom_switch_addr {n : Nat} {pins : List Nat} {sb : Nat} {syms : SymTable}
    {w : Write} (h : Write.init n pins sb syms = some w)
    (hsw : w.is_rom_bank_switch = true) :
    reduce_bus ((pins.drop 4).take 16) = some 0x2000 := by
  obtain ⟨a, ha, -, hhc, -⟩ := write_init_fields h
  unfold Write.is_rom_bank_switch at hsw
  split at hsw
  next hc hhc' =>
    rw [hhc'] at hhc
    have hca := hwLookup_addr hhc.symm
    simp at hsw
    rw [← hsw, hca]
    exact ha
  · exact absurd hsw (by simp)

lemma write_rom_unchanged {s s' : DecoderState} {pins : List Nat} {syms : SymTable}
    (h : Decoder.write s pins syms = some s')
    (hna : reduce_bus ((pins.drop 4).take 16) ≠ some 0x2000) :
    s'.prev_rom_bank = s.prev_rom_bank := by
  unfold Decoder.write at h
  split at h
  · exact absurd h (by simp)
  next s1 h1 =>
    have hfr : s1.prev_rom_bank = s.prev_rom_bank := by
      split at h1
      · exact (end_write_fields h1).2.2.1
      · cases h1; rfl
    split at h
    · exact absurd h (by simp)
    next w hw =>
      split at h
      next hsw => exact absurd (is_rom_switch_addr hw hsw) hna
      · split at h
        · obtain ⟨-, -, hrb, -, -, -, -, -⟩ := switch_sram_fields h
          rw [hrb]; exact hfr
        · cases h; exact hfr

lemma write_rom_set {s s' : DecoderState} {pins : List Nat} {syms : SymTable} {d : Nat}
    (h : Decoder.write s pins syms = some s')
    (ha : reduce_bus ((pins.drop 4).take 16) = some 0x2000)
    (hd : reduce_bus ((pins.drop 20).take 8) = some d) :
    s'.prev_rom_bank =
      some (BankInfo.mk s.samplenum d ("ROM Bank: " ++ hexUpper 2 d)) := by
  unfold Decoder.write at h
  split at h
  · exact absurd h (by simp)
  next s1 h1 =>
    have hn1 : s1.samplenum = s.samplenum := by
      split at h1
      · exact (end_write_fields h1).2.2.2.2.1
      · cases h1; rfl
    split at h
    · exact absurd h (by simp)
    next w hw =>
      obtain ⟨a, ha', hca, hhc, hcd⟩ := write_init_fields hw
      rw [ha] at ha'
      have haa : a = 0x2000 := by simpa using ha'.symm
      subst haa
      have hsw : w.is_rom_bank_switch = true := by
        unfold Write.is_rom_bank_switch
        rw [hhc]
        decide
      rw [if_pos hsw] at h
      obtain ⟨-, -, -, hn2, -, d2, hd2, hrb⟩ := switch_rom_fields h
      rw [hcd, hd] at hd2
      have hdd : d2 = d := by simpa using hd2.symm
      subst hdd
      rw [hrb]
      simp [hn1]

lemma step_stInv {syms : SymTable} {s : DecoderState} {n : Nat} {e : Edge}
    {s' : DecoderState} (h : Decoder.decodeStep syms s n e = some s')
    (hinv : stInv s) : stInv s' := by
  cases e with
  | readStart pins =>
    simp only [Decoder.decodeStep] at h
    split at h
    next s1 h1 =>
      have hr1 := (end_write_fields h1).2.1
      refine read_stInv ?_ h
      intro r hr
      rw [hr1] at hr
      exact hinv r hr
    · exact absurd h (by simp)
  | writeStart pins =>
    simp only [Decoder.decodeStep] at h
    split at h
    next s1 h1 =>
      have hr1 := (end_read_fields h1).1
      have hr' := (write_fields h).1
      intro r hr
      rw [hr', hr1] at hr
      exact absurd hr (by simp)
    · exact absurd h (by simp)

lemma run_stInv {syms : SymTable} {evs : List (Nat × Edge)} {s s' : DecoderState}
    (h : run syms s evs = some s') (hinv : stInv s) : stInv s' := by
  induction evs generalizing s with
  | nil => unfold run at h; cases h; exact hinv
  | cons ev rest ih =>
    unfold run at h
    split at h
    next s1 h1 => exact ih h (step_stInv h1 hinv)
    · exact absurd h (by simp)

/-- C1: for every Read transaction opened at an address inside a recognized
ROM window whose first data byte matches a table opcode of declared length
`L` (i.e. every stored read carrying an instruction), the state is
`COMPLETE` exactly when the recorded cycle count equals `L`, the count
never exceeds `L`, and the cycle list length always equals the count —
along every run of the decoder from its initial state. -/
theorem C1_read_cycle_invariant (syms : SymTable) (evs : List (Nat × Edge))
    (s : DecoderState) (r : Read) (inst : Instruction)
    (h : run syms initState evs = some s) (hr : s.prev_read = some r)
    (hi : r.instruction = some inst) :
    r.cycle_count ≤ inst.length ∧
    (r.state = ReadState.COMPLETE ↔ r.cycle_count = inst.length) ∧
    r.cycles.length = r.cycle_count := by
  have hinv : stInv initState := by
    intro r0 hr0
    simp [initState] at hr0
  obtain ⟨hlen, hle, hiff⟩ := run_stInv h hinv r hr inst hi
  exact ⟨hle, hiff, hlen⟩

/-- C1 witness: a read opened at `0x0150` with opcode byte `0x3e`
(`ld a, #`, length 2) is `INCOMPLETE` with one recorded cycle. -/
theorem C1_witness :
    rC1.cycle_count ≤ 2 ∧ (rC1.state = ReadState.COMPLETE ↔ rC1.cycle_count = 2) ∧
    rC1.cycles.length = rC1.cycle_count := by
  have h := C1_read_cycle_invariant [] [(0, Edge.readStart pinsOpc)] sC1 rC1
    ⟨0x3e, 2, "ld a, #"⟩ (by decide) (by decide) (by decide)
  exact h

/-- C7: `AnnFilter.check` fires its callback exactly when the collecting
latch is on after applying the read's own start-symbol match (so the
start transaction is included); the latch afterwards is off exactly when
the symbol matched `end_symbol` (so the end transaction is included and
collection stops after it); a `start_symbol` while already collecting and
an `end_symbol` while off have no effect, and the configured symbols are
unchanged. -/
theorem C7_filter_latch (f : AnnFilter) (sym : Option String) :
    (AnnFilter.check f sym).1 =
      (decide (sym = some f.start_symbol) || f.putting) ∧
    (AnnFilter.check f sym).2.putting =
      (!(decide (sym = some f.end_symbol)) &&
        (decide (sym = some f.start_symbol) || f.putting)) ∧
    (AnnFilter.check f sym).2.start_symbol = f.start_symbol ∧
    (AnnFilter.check f sym).2.end_symbol = f.end_symbol := by
  by_cases h1 : sym = some f.start_symbol <;> by_cases h2 : sym = some f.end_symbol <;>
    simp [AnnFilter.check, h1, h2]

/-- C8: a pin vector whose address batch (resp. data batch) contains the
all-ones sentinel `0xFF` decodes to `addr = none` (resp. `data = none`),
which in particular is never `some 0`. -/
theorem C8_sentinel (sample : Nat) (pins : List Nat) :
    (255 ∈ (pins.drop 4).take 16 →
      (mkCycle sample pins).addr = none ∧ (mkCycle sample pins).addr ≠ some 0) ∧
    (255 ∈ (pins.drop 20).take 8 →
      (mkCycle sample pins).data = none ∧ (mkCycle sample pins).data ≠ some 0) := by
  constructor
  · intro hmem
    have h : (mkCycle sample pins).addr = none := by
      show reduce_bus ((pins.drop 4).take 16) = none
      simp [reduce_bus, hmem]
    exact ⟨h, by rw [h]; simp⟩
  · intro hmem
    have h : (mkCycle sample pins).data = none := by
      show reduce_bus ((pins.drop 20).take 8) = none
      simp [reduce_bus, hmem]
    exact ⟨h, by rw [h]; simp⟩

/-- C8 witness: the all-unassigned pin vector decodes to no address and no
data. -/
theorem C8_witness :
    (mkCycle 0 pinsC8).addr = none ∧ (mkCycle 0 pinsC8).data = none :=
  ⟨((C8_sentinel 0 pinsC8).1 (by decide)).1,
   ((C8_sentinel 0 pinsC8).2 (by decide)).1⟩

/-- C9: `process_raw_symbols` ignores its `raw_symbols` argument — it
always parses the module-level `sym` text, so any two argument strings
yield the identical symbol table. -/
theorem C9_raw_symbols_ignored (sym r1 r2 : String) :
    process_raw_symbols sym r1 = process_raw_symbols sym r2 := rfl

/-- C5: evaluating the symbol-table load at a failing input.  A line
without any `':'` separator (here `"AB"`) is reported but NOT skipped: the
body falls through to `p1[1]`, the load aborts (`none`), and the
well-formed entry `"00:1234 Foo"` after it is lost — whereas the same text
without the malformed line parses fine. -/
theorem C5_malformed_line_aborts :
    process_raw_symbols ("AB\n00:1234 Foo") ("") = none ∧
    process_raw_symbols ("00:1234 Foo") ("") =
      some [(0x1234, [(0x00, "Foo")])] :=
  ⟨by decide, by decide⟩

/-- C2: after any successful decode step at most one transaction is open;
moreover a read-start edge first force-closes any open Write (the
intermediate state has `prev_write = none` before the Read is handled) and
leaves no open Write, and a write-start edge first force-closes any open
Read and leaves no open Read. -/
theorem C2_at_most_one_open (syms : SymTable) (s : DecoderState) (n : Nat)
    (e : Edge) (s' : DecoderState)
    (h : Decoder.decodeStep syms s n e = some s') :
    (s'.prev_read = none ∨ s'.prev_write = none) ∧
    (∀ pins, e = Edge.readStart pins →
      s'.prev_write = none ∧
      ∃ s1, Decoder.end_write { s with samplenum := n } = some s1 ∧
        s1.prev_write = none ∧ Decoder.read s1 pins syms = some s') ∧
    (∀ pins, e = Edge.writeStart pins →
      s'.prev_read = none ∧
      ∃ s1, Decoder.end_read { s with samplenum := n } syms = some s1 ∧
        s1.prev_read = none ∧ Decoder.write s1 pins syms = some s') := by
  cases e with
  | readStart pins =>
    simp only [Decoder.decodeStep] at h
    split at h
    next s1 h1 =>
      have hw1 : s1.prev_write = none := (end_write_fields h1).1
      have hw' : s'.prev_write = none := by
        rw [(read_fields h).1]; exact hw1
      refine ⟨Or.inr hw', ?_, ?_⟩
      · intro pins' hp
        cases hp
        exact ⟨hw', s1, h1, hw1, h⟩
      · intro pins' hp
        exact absurd hp (by simp)
    · exact absurd h (by simp)
  | writeStart pins =>
    simp only [Decoder.decodeStep] at h
    split at h
    next s1 h1 =>
      have hr1 : s1.prev_read = none := (end_read_fields h1).1
      have hr' : s'.prev_read = none := by
        rw [(write_fields h).1]; exact hr1
      refine ⟨Or.inl hr', ?_, ?_⟩
      · intro pins' hp
        exact absurd hp (by simp)
      · intro pins' hp
        cases hp
        exact ⟨hr', s1, h1, hr1, h⟩
    · exact absurd h (by simp)

/-- C2 witness: a decode step from the initial state leaves at most one
transaction open. -/
theorem C2_witness : sC2.prev_read = none ∨ sC2.prev_write = none :=
  (C2_at_most_one_open [] initState 0 (Edge.readStart pinsOut) sC2 (by decide)).1

lemma init_symbol_romx {n : Nat} {pins : List Nat} {bank : Nat} {syms : SymTable}
    {r : Read} {a : Nat} (h : Read.init n pins bank syms = some r)
    (ha : reduce_bus ((pins.drop 4).take 16) = some a)
    (h4 : 0x4000 ≤ a) (h7 : a ≤ 0x7FFF) :
    r.symbol = symLookup syms a bank := by
  have ha' : (mkCycle n pins).addr = some a := ha
  unfold Read.init at h
  split at h
  next heq => rw [ha'] at heq; exact absurd heq (by simp)
  next a' heq =>
    rw [ha'] at heq
    have haa : a' = a := by simpa using heq.symm
    subst haa
    split at h
    next hcond =>
      exfalso
      simp only [ROM0_START, ROM0_END] at hcond
      omega
    · split at h
      next hcond2 =>
        cases h
        rw [init_rom_symbol]
        show find_symbol_at syms (mkCycle n pins).addr bank = _
        rw [ha']
        rfl
      next hcond2 =>
        refine absurd ?_ hcond2
        simp only [ROMX_START, ROMX_END]
        omega


lemma read_open_symbol {s s' : DecoderState} {pins : List Nat} {syms : SymTable}
    {a : Nat}
    (hopen : s.prev_read = none ∨
      ∃ r0, s.prev_read = some r0 ∧ r0.state = ReadState.COMPLETE)
    (ha : reduce_bus ((pins.drop 4).take 16) = some a)
    (h4 : 0x4000 ≤ a) (h7 : a ≤ 0x7FFF)
    (h : Decoder.read s pins syms = some s') :
    ∃ r, s'.prev_read = some r ∧ r.symbol = symLookup syms a (romBankOf s) := by
  unfold Decoder.read at h
  split at h
  next hnone =>
    split at h
    next r hr =>
      cases h
      exact ⟨r, by simp, init_symbol_romx hr ha h4 h7⟩
    · exact absurd h (by simp)
  next r hprev =>
    have hco : r.state = ReadState.COMPLETE := by
      rcases hopen with hn | ⟨r0, hr0, hst⟩
      · rw [hn] at hprev; exact absurd hprev (by simp)
      · rw [hr0] at hprev
        have : r0 = r := by simpa using hprev
        rw [← this]; exact hst
    have hni : ¬ (r.state = ReadState.INCOMPLETE) := by rw [hco]; simp
    rw [if_neg hni, if_pos hco] at h
    split at h
    next s1 hend =>
      split at h
      next r' hr' =>
        cases h
        exact ⟨r', by simp, init_symbol_romx hr' ha h4 h7⟩
      · exact absurd h (by simp)
    · exact absurd h (by simp)

/-- C3: a write-start at address `0x2000` carrying data byte `d` makes `d`
the active ROM bank (recorded with the step's sample number); no other
event changes the active ROM bank; and a read-start that opens a Read at an
address in `[0x4000, 0x7FFF]` resolves its symbol through the table under
the currently active ROM bank. -/
theorem C3_rom_bank_switch (syms : SymTable) :
    (∀ (s : DecoderState) (n : Nat) (pins : List Nat) (d : Nat) (s' : DecoderState),
      reduce_bus ((pins.drop 4).take 16) = some 0x2000 →
      reduce_bus ((pins.drop 20).take 8) = some d →
      Decoder.decodeStep syms s n (Edge.writeStart pins) = some s' →
      ∃ b, s'.prev_rom_bank = some b ∧ b.bank = d ∧ b.start_sample = n) ∧
    (∀ (s : DecoderState) (n : Nat) (e : Edge) (s' : DecoderState),
      Decoder.decodeStep syms s n e = some s' →
      (∀ pins, e = Edge.writeStart pins →
        reduce_bus ((pins.drop 4).take 16) ≠ some 0x2000) →
      s'.prev_rom_bank = s.prev_rom_bank) ∧
    (∀ (s : DecoderState) (n : Nat) (pins : List Nat) (a : Nat) (s' : DecoderState),
      (s.prev_read = none ∨
        ∃ r0, s.prev_read = some r0 ∧ r0.state = ReadState.COMPLETE) →
      reduce_bus ((pins.drop 4).take 16) = some a →
      0x4000 ≤ a → a ≤ 0x7FFF →
      Decoder.decodeStep syms s n (Edge.readStart pins) = some s' →
      ∃ r, s'.prev_read = some r ∧ r.symbol = symLookup syms a (romBankOf s)) := by
  refine ⟨?_, ?_, ?_⟩
  · intro s n pins d s' ha hd h
    simp only [Decoder.decodeStep] at h
    split at h
    next s1 h1 =>
      have hn1 : s1.samplenum = n := by
        rw [(end_read_fields h1).2.2.2.2]
      have := write_rom_set h ha hd
      rw [hn1] at this
      exact ⟨_, this, rfl, rfl⟩
    · exact absurd h (by simp)
  · intro s n e s' h hno
    cases e with
    | readStart pins =>
      simp only [Decoder.decodeStep] at h
      split at h
      next s1 h1 =>
        rw [(read_fields h).2.1, (end_write_fields h1).2.2.1]
      · exact absurd h (by simp)
    | writeStart pins =>
      simp only [Decoder.decodeStep] at h
      split at h
      next s1 h1 =>
        rw [write_rom_unchanged h (hno pins rfl), (end_read_fields h1).2.2.1]
      · exact absurd h (by simp)
  · intro s n pins a s' hopen ha h4 h7 h
    simp only [Decoder.decodeStep] at h
    split at h
    next s1 h1 =>
      obtain ⟨-, hr1, hrb1, -, -, -⟩ := end_write_fields h1
      have hopen1 : s1.prev_read = none ∨
          ∃ r0, s1.prev_read = some r0 ∧ r0.state = ReadState.COMPLETE := by
        rw [hr1]; exact hopen
      obtain ⟨r, hr, hsym⟩ := read_open_symbol hopen1 ha h4 h7 h
      refine ⟨r, hr, ?_⟩
      rw [hsym]
      have : romBankOf s1 = romBankOf s := by
        unfold romBankOf
        rw [hrb1]
      rw [this]
    · exact absurd h (by simp)

/-- C3 witness: writing `0x03` to `0x2000` sets ROM bank 3; a following
read at `0x5000` resolves its symbol under bank 3, yielding `MyFunc`. -/
theorem C3_witness :
    (sC3a.prev_rom_bank.getD (BankInfo.mk 0 0 "")).bank = 0x03 ∧
    (sC3b.prev_read.getD dummyRead).symbol =
      symLookup symsEx 0x5000 (romBankOf sC3a) ∧
    symLookup symsEx 0x5000 0x03 = some ("MyFunc") := by
  refine ⟨?_, ?_, by decide⟩
  · obtain ⟨b, hb, hbank, -⟩ := (C3_rom_bank_switch symsEx).1 initState 0 pinsBank
      0x03 sC3a (by decide) (by decide) (by decide)
    rw [hb]
    exact hbank
  · obtain ⟨r, hr, hsym⟩ := (C3_rom_bank_switch symsEx).2.2 sC3a 4 pinsRomx
      0x5000 sC3b (Or.inl (by decide)) (by decide) (by decide) (by decide)
      (by decide)
    rw [hr]
    exact hsym

/-- C4: for a Read whose opcode is one of `0x21, 0xc2, 0xc3, 0xca, 0xcd,
0xea` (with at least three recorded cycles carrying data), `Read.end`
computes the operand address as `(cycles[2].data << 8) + cycles[1].data`,
resolves it under the current SRAM bank, and the instruction annotation
becomes `"<mnemonic> (<symbol>)"` when a symbol is found, else stays the
bare mnemonic. -/
theorem C4_operand_annotation (syms : SymTable) (r : Read) (n sb : Nat)
    (inst : Instruction) (c1 c2 : Cycle) (d1 d2 : Nat)
    (hi : r.instruction = some inst)
    (hop : inst.opcode ∈ [0x21, 0xc2, 0xc3, 0xca, 0xcd, 0xea])
    (h1 : r.cycles[1]? = some c1) (hd1 : c1.data = some d1)
    (h2 : r.cycles[2]? = some c2) (hd2 : c2.data = some d2)
    (hsp : r.special_ann = none) :
    ∃ r', Read.end' r n sb syms = some r' ∧ r'.end_sample = some n ∧
      (∀ name, symLookup syms ((d2 <<< 8) + d1) sb = some name →
        r'.get_instruction_ann = some (inst.ann ++ " (" ++ name ++ ")")) ∧
      (symLookup syms ((d2 <<< 8) + d1) sb = none →
        r'.get_instruction_ann = some inst.ann) := by
  cases hsym : symLookup syms ((d2 <<< 8) + d1) sb with
  | some name =>
    refine ⟨{ r with
              special_ann := some (inst.ann ++ " (" ++ name ++ ")"),
              end_sample := some n }, ?_, rfl, ?_, ?_⟩
    · simp [Read.end', Read.end_special, hi, hop, h1, h2, hd1, hd2, hsym]
    · intro name' hname
      have hnn : name = name' := by simpa using hname
      subst hnn
      simp [Read.get_instruction_ann]
    · intro hnone
      exact absurd hnone (by simp)
  | none =>
    refine ⟨{ r with special_ann := none, end_sample := some n }, ?_, rfl, ?_, ?_⟩
    · simp [Read.end', Read.end_special, hi, hop, h1, h2, hd1, hd2, hsym, hsp]
    · intro name' hname
      exact absurd hname (by simp)
    · intro hnone
      simp [Read.get_instruction_ann, hi]

/-- C4 witness: opcode `0xcd` with data bytes `0x00` then `0x50` and the
symbol `MyFunc` at `(bank 3, 0x5000)` yields `"call nn (MyFunc)"`. -/
theorem C4_witness :
    ((Read.end' rC4 9 3 symsEx).getD dummyRead).get_instruction_ann =
      some ("call nn (MyFunc)") := by
  obtain ⟨r', hend, -, hsome, -⟩ :=
    C4_operand_annotation symsEx rC4 9 3 ⟨0xcd, 3, "call nn"⟩
      ⟨1, some 0x0151, some 0x00, CycleType.DATA⟩
      ⟨2, some 0x0152, some 0x50, CycleType.DATA⟩ 0x00 0x50
      rfl (by decide) rfl rfl rfl rfl rfl
  rw [hend]
  have h := hsome ("MyFunc") (by decide)
  exact h.trans (by decide)

lemma cycle_events_ne_nil {cs : List Cycle} {es : Option Nat} {l : List AnnEvent}
    (hcs : cs ≠ []) (h : cycle_events cs es = some l) : l ≠ [] := by
  match cs with
  | [] => exact absurd rfl hcs
  | [c] =>
    unfold cycle_events at h
    split at h
    · cases h; simp
    · exact absurd h (by simp)
  | c :: c2 :: rest =>
    unfold cycle_events at h
    split at h
    · cases h; simp
    · exact absurd h (by simp)

lemma print_read_events_shape {r : Read} {evs : List AnnEvent}
    (h : print_read_events r = some evs) :
    ∃ cevs rest, cycle_events r.cycles r.end_sample = some cevs ∧
      evs = cevs ++ rest := by
  unfold print_read_events at h
  split at h
  · exact absurd h (by simp)
  next cevs hc =>
    split at h
    · exact absurd h (by simp)
    next sevs hs =>
      split at h
      · exact absurd h (by simp)
      next ievs hie =>
        cases h
        exact ⟨cevs, sevs ++ ievs, hc, by simp⟩

/-- C10: closing a Read whose opcode is one of the absolute-operand group
with fewer than three recorded cycles makes `Read.end` fail (the
`cycles[2]` access is out of range), and the situation is reachable: a
write-start edge force-closing the one-cycle `INCOMPLETE` `call nn` read
aborts the whole decode run. -/
theorem C10_early_close_fails :
    (∀ (r : Read) (n sb : Nat) (syms : SymTable) (inst : Instruction),
      r.instruction = some inst →
      inst.opcode ∈ [0x21, 0xc2, 0xc3, 0xca, 0xcd, 0xea] →
      r.cycles.length < 3 →
      Read.end' r n sb syms = none) ∧
    run [] initState [(0, Edge.readStart pinsCall), (4, Edge.writeStart pinsBank)] =
      none := by
  refine ⟨?_, by decide⟩
  intro r n sb syms inst hi hop hlen
  have h2 : r.cycles[2]? = none := List.getElem?_eq_none (by omega)
  simp [Read.end', Read.end_special, hi, hop, h2]

/-- C10 witness: ending the one-cycle `call nn` read fails. -/
theorem C10_witness : Read.end' rC10 4 0 [] = none :=
  C10_early_close_fails.1 rC10 4 0 [] ⟨0xcd, 3, "call nn"⟩ rfl (by decide) (by decide)

/-- C6 counterexample: a completed Read (opened at `0x8000`, one cycle,
state `COMPLETE`) is closed by the next read-start while the range filter's
latch is off, and NO annotation events at all are emitted — refuting the
claim that per-cycle address/data events are emitted regardless of the
filter's state. -/
theorem C6_counterexample :
    (sC6a.prev_read = some rC6 ∧ rC6.state = ReadState.COMPLETE ∧
      rC6.cycles ≠ [] ∧ sC6a.putting = false) ∧
    Decoder.decodeStep [] sC6a 5 (Edge.readStart pinsOut) = some sC6b ∧
    sC6b.out = [] := by
  exact ⟨⟨by decide, by decide, by decide, by decide⟩, by decide, by decide⟩

/-- C6 (amended): a completed Read's per-cycle events are emitted exactly
when the filter latch is on at check time, i.e. when
`filterOn putting symbol` — the latch after applying the read's own
start-symbol match — is `true` (this includes the turn-on case
`putting = false` with `symbol = start_symbol`): when it is `false`,
closing a Read emits nothing; when it is `true`, the rendered events are
appended and are non-empty; Write events are likewise gated by the filter
latch before any rendering. -/
theorem C6_read_events_gated :
    (∀ (s : DecoderState) (syms : SymTable) (r : Read) (s' : DecoderState),
      s.prev_read = some r → filterOn s.putting r.symbol = false →
      Decoder.end_read s syms = some s' → s'.out = s.out) ∧
    (∀ (s s' : DecoderState), s.putting = false →
      Decoder.end_write s = some s' → s'.out = s.out) ∧
    (∀ (s : DecoderState) (syms : SymTable) (r : Read) (s' : DecoderState),
      s.prev_read = some r → filterOn s.putting r.symbol = true →
      Decoder.end_read s syms = some s' →
      ∃ r' evs, Read.end' r s.samplenum (sramBankOf s) syms = some r' ∧
        print_read_events r' = some evs ∧ s'.out = s.out ++ evs ∧
        (r.cycles ≠ [] → evs ≠ [])) := by
  refine ⟨?_, ?_, ?_⟩
  · intro s syms r s' hr hfo h
    unfold Decoder.end_read at h
    simp only [hr] at h
    split at h
    · exact absurd h (by simp)
    next r' hend =>
      have hsym' : r'.symbol = r.symbol := (end'_fields hend).2.2.2.2.1
      rw [← hsym'] at hfo
      rw [hfo] at h
      simp only [Bool.false_eq_true, if_false] at h
      cases h
      rfl
  · intro s s' hput h
    unfold Decoder.end_write at h
    split at h
    · cases h; rfl
    next w hw =>
      rw [hput] at h
      simp only [Bool.false_eq_true, if_false] at h
      cases h
      rfl
  · intro s syms r s' hr hfo h
    unfold Decoder.end_read at h
    simp only [hr] at h
    split at h
    · exact absurd h (by simp)
    next r' hend =>
      have hsym' : r'.symbol = r.symbol := (end'_fields hend).2.2.2.2.1
      rw [← hsym'] at hfo
      rw [hfo] at h
      simp only [if_true] at h
      split at h
      · exact absurd h (by simp)
      next s1 heq =>
        obtain ⟨evs, hevs, hs1⟩ := print_read_fields heq
        cases h
        refine ⟨r', evs, hend, hevs, by rw [hs1], ?_⟩
        intro hcs
        obtain ⟨cevs, rest, hc, hsplit⟩ := print_read_events_shape hevs
        have hc' : r'.cycles ≠ [] := by
          rw [(end'_fields hend).1]
          exact hcs
        have hne := cycle_events_ne_nil hc' hc
        rw [hsplit]
        intro habs
        rw [List.append_eq_nil] at habs
        exact hne habs.1

/-- C6 witness: closing the completed `0x8000` read with the latch off
emits nothing, while closing a completed read whose symbol IS the start
symbol with the latch off (the turn-on case) emits a non-empty event
list. -/
theorem C6_witness : sC6w.out = sC6a.out ∧ sC6t.out ≠ [] := by
  constructor
  · exact C6_read_events_gated.1 sC6a [] rC6 sC6w (by decide) (by decide)
      (by decide)
  · obtain ⟨r', evs, -, -, hout, hne⟩ :=
      C6_read_events_gated.2.2 sC6s [] rC6s sC6t (by decide) (by decide)
        (by decide)
    rw [hout]
    have h := hne (by decide)
    intro habs
    rw [List.append_eq_nil] at habs
    exact h habs.2

end GB
